import Mathlib

/-!
# Verification of the push-notification dispatch core (`main.py`)

Shallow embedding of the request-admission and fan-out dispatch core of the
push backend: the sliding-window rate limiter (`_rate_limit_check`), the token
resolver (`_collect_fcm_tokens`), the dispatcher (`_send_messages_to_tokens`)
and the request handler (`send_push`).

Modelling choices:
* Python `time.monotonic()` values are rationals (`ℚ`).
* Python strings are Lean `String`s; Python's `s.strip()` is `pyStrip`
  (drop whitespace at both ends of the character list) and slicing `s[:n]`
  is `pySlice s n` (take the first `n` characters).
* The Firestore collection is a list of document dictionaries (`DocData`);
  `doc.to_dict()` is modelled as returning the record's dictionary, a field
  that is absent or holds a non-string value is `none` / `PyVal.nonstr`.
* The push provider `messaging.send` is an oracle `Message → Option String`:
  `none` means the send succeeded, `some e` means it raised exception `e`.
* `logger.warning` calls are collected as `LogEntry` values in the dispatch
  trace.
-/

namespace PushPwa

/-! ## Python string primitives -/

/-- Character-list version of Python `str.strip()`: drop whitespace from both
ends. -/
def pyStripList (l : List Char) : List Char :=
  ((l.dropWhile Char.isWhitespace).reverse.dropWhile Char.isWhitespace).reverse

/-- Python `s.strip()`. -/
def pyStrip (s : String) : String := ⟨pyStripList s.data⟩

/-- Python slicing `s[:n]`: the first `n` characters of `s`. -/
def pySlice (s : String) (n : Nat) : String := ⟨s.data.take n⟩

/-! ## Config constants (`main.py` lines 35, 41-42) -/

def MAX_TOKENS_PER_REQUEST : Nat := 100

def RATE_LIMIT_REQUESTS : Nat := 30

def RATE_LIMIT_WINDOW_SEC : ℚ := 60

/-! ## Rate limiter (`_rate_limit_check`, lines 46-54) -/

/-- Line 50: `bucket[:] = [t for t in bucket if now - t < RATE_LIMIT_WINDOW_SEC]`. -/
def pruneBucket (bucket : List ℚ) (now : ℚ) : List ℚ :=
  bucket.filter (fun t => now - t < RATE_LIMIT_WINDOW_SEC)

structure RateLimitResult where
  allowed : Bool
  buckets : String → List ℚ

/-- Assignment to `_rate_limit_buckets[client_ip]`: point update of the map. -/
def updateBucket (buckets : String → List ℚ) (clientIp : String) (v : List ℚ) :
    String → List ℚ :=
  fun k => if k = clientIp then v else buckets k

/-- `_rate_limit_check(client_ip)`; the globals `_rate_limit_buckets` and the
current `time.monotonic()` are passed explicitly.  The mutation of
`_rate_limit_buckets[client_ip]` is the functional update of the bucket map
(the `defaultdict` makes a missing key behave as the empty list, which the
map type `String → List ℚ` represents directly). -/
def rateLimitCheck (buckets : String → List ℚ) (clientIp : String) (now : ℚ) :
    RateLimitResult :=
  let bucket := pruneBucket (buckets clientIp) now
  if RATE_LIMIT_REQUESTS ≤ bucket.length then
    { allowed := false, buckets := updateBucket buckets clientIp bucket }
  else
    { allowed := true, buckets := updateBucket buckets clientIp (bucket ++ [now]) }

/-- A sequence of admission checks from one client: feed the times one by one
through `rateLimitCheck`, collecting the decisions. -/
def runChecks (buckets : String → List ℚ) (clientIp : String) : List ℚ → List Bool
  | [] => []
  | now :: rest =>
    let r := rateLimitCheck buckets clientIp now
    r.allowed :: runChecks r.buckets clientIp rest

/-- Number of admitted timestamps lying within the rolling 60-second window
ending at `now` (spec-side notion used to state the rate-limit property). -/
def windowCount (admitted : List ℚ) (now : ℚ) : Nat :=
  (admitted.filter (fun t => now - t < 60)).length

/-- Spec-side admission decision: allow iff fewer than 30 admitted requests
lie within the rolling 60-second window ending at `now`. -/
def specAllows (admitted : List ℚ) (now : ℚ) : Bool :=
  windowCount admitted now < 30

/-- Spec-side run: keeps the full history of admitted request times and decides
every check by counting within the rolling window. -/
def specRun (admitted : List ℚ) : List ℚ → List Bool
  | [] => []
  | now :: rest =>
    if specAllows admitted now then true :: specRun (admitted ++ [now]) rest
    else false :: specRun admitted rest

/-! ## Token resolver (`_collect_fcm_tokens`, lines 117-132) -/

/-- A Python value stored in a document field: a string, or anything else. -/
inductive PyVal where
  | str (s : String)
  | nonstr
deriving DecidableEq

/-- One document of the `fcmTokens` collection (`doc.to_dict()`): optional
`token` and `deviceName` fields. -/
structure DocData where
  token : Option PyVal
  deviceName : Option PyVal
deriving DecidableEq

/-- Lines 119-125: the Firestore query.  `where("deviceName", "==", v)` keeps
the documents whose `deviceName` field equals the string `v`; `limit(n)` keeps
the first `n` documents.  Line 120 is Python truthiness:
`if device_name and device_name.strip():`. -/
def queryDocs (store : List DocData) (device_name : Option String) : List DocData :=
  match device_name with
  | some d =>
    if d ≠ "" ∧ pyStrip d ≠ "" then
      (store.filter (fun doc => doc.deviceName = some (.str (pyStrip d)))).take
        MAX_TOKENS_PER_REQUEST
    else
      store.take MAX_TOKENS_PER_REQUEST
  | none => store.take MAX_TOKENS_PER_REQUEST

/-- Lines 128-131, for one document: `token = data.get("token")`;
`if isinstance(token, str) and token.strip(): tokens.append(token.strip())`. -/
def extractToken (doc : DocData) : Option String :=
  match doc.token with
  | some (.str s) => if pyStrip s ≠ "" then some (pyStrip s) else none
  | _ => none

/-- `_collect_fcm_tokens(db, device_name)`: query, then collect the stripped
token fields, skipping documents without a non-empty string token. -/
def collectFcmTokens (store : List DocData) (device_name : Option String) :
    List String :=
  (queryDocs store device_name).filterMap extractToken

/-! ## Dispatcher (`_send_messages_to_tokens`, lines 135-153) -/

/-- The `messaging.Message` handed to `messaging.send` (lines 140-148). -/
structure Message where
  title : String
  body : String
  token : String
deriving DecidableEq

/-- Lines 143-147: the message for one token, with title and body truncated. -/
def mkMessage (title body token : String) : Message :=
  { title := pySlice title 200, body := pySlice body 1000, token := token }

/-- One `logger.warning` record of line 152: the token text that is shown and
the exception text. -/
structure LogEntry where
  shownToken : String
  error : String
deriving DecidableEq

/-- Line 152: `token[:16] if token else ""`. -/
def logTokenText (token : String) : String :=
  if token ≠ "" then pySlice token 16 else ""

/-- What one call of `_send_messages_to_tokens` did: the two counters it
returns, plus the messages handed to the provider and the warnings logged. -/
structure DispatchTrace where
  success : Nat
  failure : Nat
  sent : List Message
  logs : List LogEntry
deriving DecidableEq

/-- `_send_messages_to_tokens(tokens, title, body)`: for each token build the
truncated message, attempt the send, and count the outcome; an exception is
caught, counted as a failure and logged with the truncated token. -/
def sendMessagesToTokens (provider : Message → Option String)
    (title body : String) : List String → DispatchTrace
  | [] => { success := 0, failure := 0, sent := [], logs := [] }
  | token :: rest =>
    let msg := mkMessage title body token
    let r := sendMessagesToTokens provider title body rest
    match provider msg with
    | none =>
      { success := r.success + 1, failure := r.failure,
        sent := msg :: r.sent, logs := r.logs }
    | some e =>
      { success := r.success, failure := r.failure + 1,
        sent := msg :: r.sent,
        logs := { shownToken := logTokenText token, error := e } :: r.logs }

/-! ## Request handler (`send_push`, lines 181-210) -/

/-- The validated request body (`SendPushRequest`, lines 156-166). -/
structure SendPushRequest where
  title : String
  body : String
  device_name : Option String
deriving DecidableEq

/-- The 200-response body (`SendPushResponse`, lines 169-173). -/
structure SendPushResponse where
  success_count : Nat
  failure_count : Nat
  total : Nat
  message : String
deriving DecidableEq

/-- The three possible responses of `send_push`: 429, 401, or 200 with body. -/
inductive HttpResponse where
  | tooManyRequests
  | unauthorized
  | ok (resp : SendPushResponse)
deriving DecidableEq

/-- Line 202: the guidance message returned when no tokens are found. -/
def NO_TOKENS_MESSAGE : String :=
  "발송할 FCM 토큰이 없습니다. deviceName을 확인하거나, 앱에서 먼저 알림 권한 및 토큰 등록을 해 주세요."

/-- Line 209: the localized summary message. -/
def summaryMessage (success failure total : Nat) : String :=
  s!"발송 완료: 성공 {success}, 실패 {failure} (총 {total}개 기기)"

/-- Line 183: `request.client.host if request.client else "unknown"`. -/
def clientHostToIp (clientHost : Option String) : String :=
  match clientHost with
  | some h => h
  | none => "unknown"

/-- Ambient state and collaborators of one `send_push` invocation:
`PUSH_API_KEY` (already stripped at config load, line 38), the current
`time.monotonic()`, the rate-limit bucket map, the Firestore collection and
the push provider. -/
structure Env where
  pushApiKey : String
  now : ℚ
  buckets : String → List ℚ
  store : List DocData
  provider : Message → Option String

/-- Everything one `send_push` invocation produced: the HTTP response, the
updated bucket map, the token list the resolver returned (`none` when the
resolver was never invoked) and the dispatch trace (`none` when the
dispatcher was never invoked). -/
structure HandlerResult where
  response : HttpResponse
  buckets : String → List ℚ
  resolvedTokens : Option (List String)
  dispatched : Option DispatchTrace

/-- `send_push(request, req)` (lines 181-210): rate limit, then API key, then
token resolution, then dispatch. -/
def send_push (env : Env) (clientHost : Option String)
    (apiKeyHeader : Option String) (req : SendPushRequest) : HandlerResult :=
  let clientIp := clientHostToIp clientHost
  let rl := rateLimitCheck env.buckets clientIp env.now
  if rl.allowed = false then
    { response := .tooManyRequests, buckets := rl.buckets,
      resolvedTokens := none, dispatched := none }
  else if env.pushApiKey ≠ "" ∧ apiKeyHeader ≠ some env.pushApiKey then
    { response := .unauthorized, buckets := rl.buckets,
      resolvedTokens := none, dispatched := none }
  else
    let tokens := collectFcmTokens env.store req.device_name
    if tokens = [] then
      { response := .ok { success_count := 0, failure_count := 0, total := 0,
                          message := NO_TOKENS_MESSAGE },
        buckets := rl.buckets, resolvedTokens := some tokens, dispatched := none }
    else
      let d := sendMessagesToTokens env.provider req.title req.body tokens
      { response := .ok { success_count := d.success, failure_count := d.failure,
                          total := tokens.length,
                          message := summaryMessage d.success d.failure tokens.length },
        buckets := rl.buckets, resolvedTokens := some tokens, dispatched := some d }

/-! ## Helper lemmas: rate limiter -/

lemma pruneBucket_eq (bucket : List ℚ) (now : ℚ) :
    pruneBucket bucket now = bucket.filter (fun t => now - t < 60) := rfl

lemma updateBucket_same (buckets : String → List ℚ) (ip : String) (v : List ℚ) :
    updateBucket buckets ip v ip = v := by
  simp [updateBucket]

lemma updateBucket_ne (buckets : String → List ℚ) (ip : String) (v : List ℚ)
    (k : String) (h : k ≠ ip) : updateBucket buckets ip v k = buckets k := by
  simp [updateBucket, h]

lemma rateLimitCheck_eq (buckets : String → List ℚ) (ip : String) (now : ℚ) :
    rateLimitCheck buckets ip now =
      if RATE_LIMIT_REQUESTS ≤ (pruneBucket (buckets ip) now).length then
        { allowed := false, buckets := updateBucket buckets ip (pruneBucket (buckets ip) now) }
      else
        { allowed := true,
          buckets := updateBucket buckets ip (pruneBucket (buckets ip) now ++ [now]) } := rfl

/-- Re-filtering an already window-filtered list at a later instant drops the
earlier filter: the newer window is contained in the older one. -/
lemma filter_window_filter_window (l : List ℚ) (now now' : ℚ) (h : now ≤ now') :
    (l.filter (fun t => now - t < 60)).filter (fun t => now' - t < 60)
      = l.filter (fun t => now' - t < 60) := by
  rw [List.filter_filter]
  apply List.filter_congr
  intro t _
  by_cases hw : now' - t < 60
  · have hw' : now - t < 60 := lt_of_le_of_lt (by linarith) hw
    simp [hw, hw']
  · simp [hw]

/-- Core refinement: a sequence of checks against the pruned in-memory bucket
decides exactly like the spec-side run that keeps the full admitted history
and counts inside the rolling 60-second window. -/
lemma runChecks_eq_specRun :
    ∀ (times : List ℚ), times.Pairwise (· ≤ ·) →
    ∀ (buckets : String → List ℚ) (ip : String) (admitted : List ℚ),
      (∀ now ∈ times,
        (buckets ip).filter (fun t => now - t < 60)
          = admitted.filter (fun t => now - t < 60)) →
      runChecks buckets ip times = specRun admitted times
  | [], _, _, _, _, _ => rfl
  | now :: rest, hsorted, buckets, ip, admitted, H => by
    obtain ⟨hle, hrest⟩ := List.pairwise_cons.mp hsorted
    have hbucket : pruneBucket (buckets ip) now
        = admitted.filter (fun t => now - t < 60) := by
      rw [pruneBucket_eq]
      exact H now (List.mem_cons_self _ _)
    have hlhs : runChecks buckets ip (now :: rest)
        = (rateLimitCheck buckets ip now).allowed
            :: runChecks (rateLimitCheck buckets ip now).buckets ip rest := rfl
    have hcount : windowCount admitted now = (pruneBucket (buckets ip) now).length := by
      rw [hbucket, windowCount]
    by_cases hc : RATE_LIMIT_REQUESTS ≤ (pruneBucket (buckets ip) now).length
    · have hallow : specAllows admitted now = false := by
        simp only [specAllows, hcount, decide_eq_false_iff_not, not_lt]
        exact hc
      have hrhs : specRun admitted (now :: rest) = false :: specRun admitted rest := by
        rw [specRun, hallow]
        simp
      rw [hlhs, hrhs, rateLimitCheck_eq, if_pos hc]
      refine congrArg₂ _ rfl ?_
      refine runChecks_eq_specRun rest hrest _ ip admitted ?_
      intro now' hmem
      dsimp only
      rw [updateBucket_same, hbucket,
        filter_window_filter_window admitted now now' (hle now' hmem)]
    · have hallow : specAllows admitted now = true := by
        simp only [specAllows, decide_eq_true_eq, hcount]
        exact lt_of_not_le hc
      have hrhs : specRun admitted (now :: rest)
          = true :: specRun (admitted ++ [now]) rest := by
        rw [specRun, hallow]
        simp
      rw [hlhs, hrhs, rateLimitCheck_eq, if_neg hc]
      refine congrArg₂ _ rfl ?_
      refine runChecks_eq_specRun rest hrest _ ip (admitted ++ [now]) ?_
      intro now' hmem
      dsimp only
      rw [updateBucket_same, List.filter_append, List.filter_append, hbucket,
        filter_window_filter_window admitted now now' (hle now' hmem)]

/-! ## Claim theorems: rate limiter -/

/-- C1: every admission check prunes the bucket to the timestamps within the
last 60 seconds, denies when at least 30 remain and otherwise records `now`
and allows; consequently a monotone sequence of checks from one client,
starting from an empty bucket, is decided exactly as by the rolling-window
rule: the check at time `now` is denied iff at least 30 requests were already
admitted within the window `(now - 60, now]`, i.e. iff it is the `N`-th
request of that window with `N > 30`. -/
theorem rate_limit_sliding_window (buckets : String → List ℚ) (ip : String)
    (times : List ℚ) (hsorted : times.Pairwise (· ≤ ·))
    (hempty : buckets ip = []) :
    runChecks buckets ip times = specRun [] times ∧
    ∀ (bkts : String → List ℚ) (now : ℚ),
      ((rateLimitCheck bkts ip now).allowed = true ↔
        ((bkts ip).filter (fun t => now - t < 60)).length < 30) ∧
      (rateLimitCheck bkts ip now).buckets ip =
        (if ((bkts ip).filter (fun t => now - t < 60)).length < 30
          then (bkts ip).filter (fun t => now - t < 60) ++ [now]
          else (bkts ip).filter (fun t => now - t < 60)) := by
  constructor
  · refine runChecks_eq_specRun times hsorted buckets ip [] ?_
    intro now _
    rw [hempty]
  · intro bkts now
    rw [rateLimitCheck_eq, pruneBucket_eq]
    simp only [RATE_LIMIT_REQUESTS]
    by_cases hc : ((bkts ip).filter (fun t => now - t < 60)).length < 30
    · rw [if_neg (not_le.mpr hc)]
      constructor
      · simp [hc]
      · simp [updateBucket_same, if_pos hc]
    · rw [if_pos (not_lt.mp hc)]
      constructor
      · simp [hc]
      · simp [updateBucket_same, if_neg hc]

/-- Witness for C1 at a concrete run: three checks at times 0, 1, 61 from an
initially empty bucket. -/
theorem rate_limit_sliding_window_witness :
    runChecks (fun _ => []) "203.0.113.7" [0, 1, 61] = specRun [] [0, 1, 61] :=
  (rate_limit_sliding_window (fun _ => []) "203.0.113.7" [0, 1, 61]
    (by norm_num [List.pairwise_cons]) rfl).1

/-- C9: preservation of the rate-limit state invariant: if every bucket holds
at most 30 timestamps, then after any admission check every bucket still holds
at most 30 timestamps, and the bucket of every client other than the queried
one is unchanged. -/
theorem rate_limit_state_invariant (buckets : String → List ℚ) (ip : String)
    (now : ℚ) (hinv : ∀ k, (buckets k).length ≤ 30) :
    (∀ k, ((rateLimitCheck buckets ip now).buckets k).length ≤ 30) ∧
    (∀ k, k ≠ ip → (rateLimitCheck buckets ip now).buckets k = buckets k) := by
  rw [rateLimitCheck_eq]
  by_cases hc : RATE_LIMIT_REQUESTS ≤ (pruneBucket (buckets ip) now).length
  · rw [if_pos hc]
    refine ⟨fun k => ?_, fun k hk => ?_⟩
    · by_cases hkip : k = ip
      · subst hkip
        dsimp only
        rw [updateBucket_same]
        exact le_trans (List.length_filter_le _ _) (hinv k)
      · dsimp only
        rw [updateBucket_ne _ _ _ _ hkip]
        exact hinv k
    · dsimp only
      rw [updateBucket_ne _ _ _ _ hk]
  · rw [if_neg hc]
    refine ⟨fun k => ?_, fun k hk => ?_⟩
    · by_cases hkip : k = ip
      · subst hkip
        dsimp only
        rw [updateBucket_same, List.length_append]
        have hlt : (pruneBucket (buckets k) now).length < 30 := by
          simpa [RATE_LIMIT_REQUESTS] using not_le.mp hc
        simpa using Nat.lt_iff_add_one_le.mp hlt
      · dsimp only
        rw [updateBucket_ne _ _ _ _ hkip]
        exact hinv k
    · dsimp only
      rw [updateBucket_ne _ _ _ _ hk]

/-- Witness for C9 at a concrete state: the empty bucket map. -/
theorem rate_limit_state_invariant_witness :
    (∀ k, ((rateLimitCheck (fun _ => []) "203.0.113.9" 0).buckets k).length ≤ 30) ∧
    (∀ k, k ≠ "203.0.113.9" →
      (rateLimitCheck (fun _ => []) "203.0.113.9" 0).buckets k = []) :=
  rate_limit_state_invariant (fun _ => []) "203.0.113.9" 0
    (fun _ => by simp)

/-! ## Helper lemmas: dispatcher -/

/-- Full characterization of one dispatcher call: the counters count the
provider outcomes, every token is sent exactly the truncated message, and the
log holds one entry per failed token built from the truncated token text. -/
lemma sendMessages_trace (provider : Message → Option String) (title body : String) :
    ∀ tokens : List String,
      (sendMessagesToTokens provider title body tokens).success
          = (tokens.filter (fun t => (provider (mkMessage title body t)).isNone)).length ∧
      (sendMessagesToTokens provider title body tokens).failure
          = (tokens.filter (fun t => (provider (mkMessage title body t)).isSome)).length ∧
      (sendMessagesToTokens provider title body tokens).sent
          = tokens.map (mkMessage title body) ∧
      (sendMessagesToTokens provider title body tokens).logs
          = tokens.filterMap (fun t =>
              match provider (mkMessage title body t) with
              | some e => some { shownToken := logTokenText t, error := e }
              | none => none)
  | [] => by simp [sendMessagesToTokens]
  | token :: rest => by
    obtain ⟨hs, hf, hsent, hlogs⟩ := sendMessages_trace provider title body rest
    cases hp : provider (mkMessage title body token) with
    | none =>
      refine ⟨?_, ?_, ?_, ?_⟩ <;>
        simp [sendMessagesToTokens, hp, hs, hf, hsent, hlogs]
    | some e =>
      refine ⟨?_, ?_, ?_, ?_⟩ <;>
        simp [sendMessagesToTokens, hp, hs, hf, hsent, hlogs]

/-- The two counters of one dispatcher call always sum to the number of
tokens handed to it. -/
lemma sendMessages_success_add_failure (provider : Message → Option String)
    (title body : String) :
    ∀ tokens : List String,
      (sendMessagesToTokens provider title body tokens).success
        + (sendMessagesToTokens provider title body tokens).failure = tokens.length
  | [] => rfl
  | token :: rest => by
    have ih := sendMessages_success_add_failure provider title body rest
    cases hp : provider (mkMessage title body token) with
    | none =>
      simp only [sendMessagesToTokens, hp, List.length_cons]
      omega
    | some e =>
      simp only [sendMessagesToTokens, hp, List.length_cons]
      omega

/-! ## Helper lemmas: the four branches of the handler -/

lemma send_push_eq_rateLimited (env : Env) (clientHost apiKeyHeader : Option String)
    (req : SendPushRequest)
    (h : (rateLimitCheck env.buckets (clientHostToIp clientHost) env.now).allowed = false) :
    send_push env clientHost apiKeyHeader req =
      { response := .tooManyRequests,
        buckets := (rateLimitCheck env.buckets (clientHostToIp clientHost) env.now).buckets,
        resolvedTokens := none, dispatched := none } := by
  simp only [send_push]
  rw [if_pos h]

lemma send_push_eq_unauthorized (env : Env) (clientHost apiKeyHeader : Option String)
    (req : SendPushRequest)
    (hrl : (rateLimitCheck env.buckets (clientHostToIp clientHost) env.now).allowed = true)
    (hkey : env.pushApiKey ≠ "" ∧ apiKeyHeader ≠ some env.pushApiKey) :
    send_push env clientHost apiKeyHeader req =
      { response := .unauthorized,
        buckets := (rateLimitCheck env.buckets (clientHostToIp clientHost) env.now).buckets,
        resolvedTokens := none, dispatched := none } := by
  simp only [send_push]
  rw [if_neg (by simp [hrl]), if_pos hkey]

lemma send_push_eq_noTokens (env : Env) (clientHost apiKeyHeader : Option String)
    (req : SendPushRequest)
    (hrl : (rateLimitCheck env.buckets (clientHostToIp clientHost) env.now).allowed = true)
    (hauth : ¬(env.pushApiKey ≠ "" ∧ apiKeyHeader ≠ some env.pushApiKey))
    (hempty : collectFcmTokens env.store req.device_name = []) :
    send_push env clientHost apiKeyHeader req =
      { response := .ok { success_count := 0, failure_count := 0, total := 0,
                          message := NO_TOKENS_MESSAGE },
        buckets := (rateLimitCheck env.buckets (clientHostToIp clientHost) env.now).buckets,
        resolvedTokens := some [], dispatched := none } := by
  simp only [send_push]
  rw [if_neg (by simp [hrl]), if_neg hauth, if_pos hempty, hempty]

lemma send_push_eq_dispatch (env : Env) (clientHost apiKeyHeader : Option String)
    (req : SendPushRequest)
    (hrl : (rateLimitCheck env.buckets (clientHostToIp clientHost) env.now).allowed = true)
    (hauth : ¬(env.pushApiKey ≠ "" ∧ apiKeyHeader ≠ some env.pushApiKey))
    (hne : collectFcmTokens env.store req.device_name ≠ []) :
    send_push env clientHost apiKeyHeader req =
      { response := .ok
          { success_count := (sendMessagesToTokens env.provider req.title req.body
              (collectFcmTokens env.store req.device_name)).success,
            failure_count := (sendMessagesToTokens env.provider req.title req.body
              (collectFcmTokens env.store req.device_name)).failure,
            total := (collectFcmTokens env.store req.device_name).length,
            message := summaryMessage
              (sendMessagesToTokens env.provider req.title req.body
                (collectFcmTokens env.store req.device_name)).success
              (sendMessagesToTokens env.provider req.title req.body
                (collectFcmTokens env.store req.device_name)).failure
              (collectFcmTokens env.store req.device_name).length },
        buckets := (rateLimitCheck env.buckets (clientHostToIp clientHost) env.now).buckets,
        resolvedTokens := some (collectFcmTokens env.store req.device_name),
        dispatched := some (sendMessagesToTokens env.provider req.title req.body
          (collectFcmTokens env.store req.device_name)) } := by
  simp only [send_push]
  rw [if_neg (by simp [hrl]), if_neg hauth, if_neg hne]

/-! ## Claim theorems: dispatcher counts (C2) -/

/-- C2: for every dispatch the two counters sum to the number of tokens, and
whenever the handler resolved a token list and answered 200, the response body
satisfies `success_count + failure_count = total` and `total` is the length of
the resolved token list. -/
theorem dispatch_counts_consistent (env : Env) (clientHost apiKeyHeader : Option String)
    (req : SendPushRequest) (ts : List String) (r : SendPushResponse)
    (hts : (send_push env clientHost apiKeyHeader req).resolvedTokens = some ts)
    (hr : (send_push env clientHost apiKeyHeader req).response = .ok r) :
    (∀ (provider : Message → Option String) (title body : String) (tokens : List String),
      (sendMessagesToTokens provider title body tokens).success
        + (sendMessagesToTokens provider title body tokens).failure = tokens.length) ∧
    r.success_count + r.failure_count = r.total ∧ r.total = ts.length := by
  refine ⟨fun provider title body tokens =>
    sendMessages_success_add_failure provider title body tokens, ?_⟩
  by_cases h1 : (rateLimitCheck env.buckets (clientHostToIp clientHost) env.now).allowed = false
  · rw [send_push_eq_rateLimited env clientHost apiKeyHeader req h1] at hts
    exact absurd hts (by simp)
  · have hrl : (rateLimitCheck env.buckets (clientHostToIp clientHost) env.now).allowed = true := by
      simpa using h1
    by_cases h2 : env.pushApiKey ≠ "" ∧ apiKeyHeader ≠ some env.pushApiKey
    · rw [send_push_eq_unauthorized env clientHost apiKeyHeader req hrl h2] at hts
      exact absurd hts (by simp)
    · by_cases h3 : collectFcmTokens env.store req.device_name = []
      · rw [send_push_eq_noTokens env clientHost apiKeyHeader req hrl h2 h3] at hts hr
        simp only [Option.some.injEq] at hts
        simp only [HttpResponse.ok.injEq] at hr
        subst hts
        subst hr
        simp
      · rw [send_push_eq_dispatch env clientHost apiKeyHeader req hrl h2 h3] at hts hr
        simp only [Option.some.injEq] at hts
        simp only [HttpResponse.ok.injEq] at hr
        subst hts
        subst hr
        refine ⟨?_, rfl⟩
        exact sendMessages_success_add_failure env.provider req.title req.body _

/-- Witness for C2 at a concrete dispatch: one stored token, failing provider. -/
theorem dispatch_counts_consistent_witness :
    (∀ (provider : Message → Option String) (title body : String) (tokens : List String),
      (sendMessagesToTokens provider title body tokens).success
        + (sendMessagesToTokens provider title body tokens).failure = tokens.length) ∧
    ({ success_count := 0, failure_count := 1, total := 1,
       message := summaryMessage 0 1 1 } : SendPushResponse).success_count
      + ({ success_count := 0, failure_count := 1, total := 1,
           message := summaryMessage 0 1 1 } : SendPushResponse).failure_count
      = ({ success_count := 0, failure_count := 1, total := 1,
           message := summaryMessage 0 1 1 } : SendPushResponse).total ∧
    ({ success_count := 0, failure_count := 1, total := 1,
       message := summaryMessage 0 1 1 } : SendPushResponse).total
      = (["tokA"] : List String).length :=
  dispatch_counts_consistent
    ⟨"", 0, fun _ => [], [⟨some (.str "tokA"), none⟩], fun _ => some "boom"⟩
    (some "198.51.100.4") none ⟨"t", "b", none⟩ ["tokA"]
    { success_count := 0, failure_count := 1, total := 1, message := summaryMessage 0 1 1 }
    (by decide) (by decide)

/-! ## Claim theorems: failure isolation (C3) -/

/-- C3: a provider failure for one token never aborts the remaining tokens:
every token of the list is attempted (the sent messages are exactly one per
token, in order), the failure counter counts exactly the failing sends, and
when every single send fails the handler still answers 200, reporting
`success_count = 0` and `failure_count = total`. -/
theorem dispatch_failure_isolation (env : Env) (clientHost apiKeyHeader : Option String)
    (req : SendPushRequest)
    (hrl : (rateLimitCheck env.buckets (clientHostToIp clientHost) env.now).allowed = true)
    (hauth : ¬(env.pushApiKey ≠ "" ∧ apiKeyHeader ≠ some env.pushApiKey))
    (hne : collectFcmTokens env.store req.device_name ≠ [])
    (hallfail : ∀ m, (env.provider m).isSome = true) :
    (∀ (provider : Message → Option String) (title body : String) (tokens : List String),
      (sendMessagesToTokens provider title body tokens).sent.map Message.token = tokens ∧
      (sendMessagesToTokens provider title body tokens).failure
        = (tokens.filter (fun t => (provider (mkMessage title body t)).isSome)).length) ∧
    (send_push env clientHost apiKeyHeader req).response
      = .ok { success_count := 0,
              failure_count := (collectFcmTokens env.store req.device_name).length,
              total := (collectFcmTokens env.store req.device_name).length,
              message := summaryMessage 0
                (collectFcmTokens env.store req.device_name).length
                (collectFcmTokens env.store req.device_name).length } := by
  constructor
  · intro provider title body tokens
    obtain ⟨-, hf, hsent, -⟩ := sendMessages_trace provider title body tokens
    constructor
    · rw [hsent, List.map_map]
      have : (Message.token ∘ mkMessage title body) = id := by
        funext t
        rfl
      rw [this, List.map_id]
    · exact hf
  · obtain ⟨hs, hf, -, -⟩ :=
      sendMessages_trace env.provider req.title req.body
        (collectFcmTokens env.store req.device_name)
    have hsucc : (sendMessagesToTokens env.provider req.title req.body
        (collectFcmTokens env.store req.device_name)).success = 0 := by
      rw [hs, List.length_eq_zero]
      rw [List.filter_eq_nil_iff]
      intro t _
      simp [Option.isNone_iff_eq_none, ← Option.not_isSome_iff_eq_none, hallfail]
    have hfail : (sendMessagesToTokens env.provider req.title req.body
        (collectFcmTokens env.store req.device_name)).failure
        = (collectFcmTokens env.store req.device_name).length := by
      rw [hf, List.filter_eq_self.mpr]
      intro t _
      exact hallfail _
    rw [send_push_eq_dispatch env clientHost apiKeyHeader req hrl hauth hne,
      hsucc, hfail]

/-- Witness for C3: two stored tokens, a provider that rejects everything;
the handler still answers 200 with `failure_count = total = 2`. -/
theorem dispatch_failure_isolation_witness :
    (∀ (provider : Message → Option String) (title body : String) (tokens : List String),
      (sendMessagesToTokens provider title body tokens).sent.map Message.token = tokens ∧
      (sendMessagesToTokens provider title body tokens).failure
        = (tokens.filter (fun t => (provider (mkMessage title body t)).isSome)).length) ∧
    (send_push ⟨"", 0, fun _ => [], [⟨some (.str "tokA"), none⟩, ⟨some (.str "tokB"), none⟩],
        fun _ => some "unregistered"⟩ (some "198.51.100.7") none ⟨"t", "b", none⟩).response
      = .ok { success_count := 0,
              failure_count := (collectFcmTokens
                [⟨some (.str "tokA"), none⟩, ⟨some (.str "tokB"), none⟩] none).length,
              total := (collectFcmTokens
                [⟨some (.str "tokA"), none⟩, ⟨some (.str "tokB"), none⟩] none).length,
              message := summaryMessage 0
                (collectFcmTokens
                  [⟨some (.str "tokA"), none⟩, ⟨some (.str "tokB"), none⟩] none).length
                (collectFcmTokens
                  [⟨some (.str "tokA"), none⟩, ⟨some (.str "tokB"), none⟩] none).length } :=
  dispatch_failure_isolation
    ⟨"", 0, fun _ => [], [⟨some (.str "tokA"), none⟩, ⟨some (.str "tokB"), none⟩],
      fun _ => some "unregistered"⟩
    (some "198.51.100.7") none ⟨"t", "b", none⟩
    (by decide) (by decide) (by decide) (fun _ => rfl)

/-! ## Claim theorems: per-send truncation (C7) -/

/-- C7: the dispatcher truncates the title to 200 characters and the body to
1000 characters in the message built for every individual send, and it never
rejects a payload for its length: one message is handed to the provider per
token whatever the payload sizes, and a body of at least 1000 characters
(e.g. 5000) is sent as exactly its first 1000 characters. -/
theorem dispatch_truncates_payload (provider : Message → Option String)
    (title body : String) (tokens : List String) :
    (sendMessagesToTokens provider title body tokens).sent.length = tokens.length ∧
    (∀ msg ∈ (sendMessagesToTokens provider title body tokens).sent,
      msg.title = pySlice title 200 ∧ msg.body = pySlice body 1000 ∧
      msg.title.data = title.data.take 200 ∧ msg.body.data = body.data.take 1000) ∧
    (1000 ≤ body.data.length → (pySlice body 1000).data.length = 1000) := by
  obtain ⟨-, -, hsent, -⟩ := sendMessages_trace provider title body tokens
  refine ⟨?_, ?_, ?_⟩
  · rw [hsent, List.length_map]
  · intro msg hmem
    rw [hsent] at hmem
    obtain ⟨t, -, rfl⟩ := List.mem_map.mp hmem
    exact ⟨rfl, rfl, rfl, rfl⟩
  · intro hlen
    show (body.data.take 1000).length = 1000
    rw [List.length_take]
    omega

/-- Witness for C7: a 1005-character body with one token; the sent message
carries exactly the first 1000 characters. -/
theorem dispatch_truncates_payload_witness :
    (sendMessagesToTokens (fun _ => none) "T"
        ⟨List.replicate 1005 'x'⟩ ["tok"]).sent.length = (["tok"] : List String).length ∧
    (mkMessage "T" ⟨List.replicate 1005 'x'⟩ "tok").title = pySlice "T" 200 ∧
    (mkMessage "T" ⟨List.replicate 1005 'x'⟩ "tok").body
      = pySlice ⟨List.replicate 1005 'x'⟩ 1000 ∧
    (mkMessage "T" ⟨List.replicate 1005 'x'⟩ "tok").title.data
      = ("T" : String).data.take 200 ∧
    (mkMessage "T" ⟨List.replicate 1005 'x'⟩ "tok").body.data
      = (List.replicate 1005 'x').take 1000 ∧
    (pySlice ⟨List.replicate 1005 'x'⟩ 1000).data.length = 1000 := by
  obtain ⟨h1, h2, h3⟩ :=
    dispatch_truncates_payload (fun _ => none) "T" ⟨List.replicate 1005 'x'⟩ ["tok"]
  have hmem : mkMessage "T" ⟨List.replicate 1005 'x'⟩ "tok"
      ∈ (sendMessagesToTokens (fun _ => none) "T"
          ⟨List.replicate 1005 'x'⟩ ["tok"]).sent := by
    obtain ⟨-, -, hsent, -⟩ :=
      sendMessages_trace (fun _ => none) "T" ⟨List.replicate 1005 'x'⟩ ["tok"]
    rw [hsent]
    exact List.mem_map_of_mem _ (List.mem_singleton_self _)
  obtain ⟨ha, hb, hc, hd⟩ := h2 _ hmem
  have hblen : 1000 ≤ (⟨List.replicate 1005 'x'⟩ : String).data.length := by
    show 1000 ≤ (List.replicate 1005 'x').length
    rw [List.length_replicate]
    norm_num
  exact ⟨h1, ha, hb, hc, hd, h3 hblen⟩

/-! ## Claim theorems: log hyperproperty (C8) -/

/-- The token text of line 152 is always exactly the first 16 characters. -/
lemma logTokenText_eq_pySlice (t : String) : logTokenText t = pySlice t 16 := by
  unfold logTokenText
  by_cases h : t = ""
  · subst h
    rw [if_neg (by simp)]
    rfl
  · rw [if_pos h]

/-- C8: the token text shown in a failure log depends only on the first 16
characters of the token — two tokens agreeing on those produce identical log
token text — the shown text is never longer than 16 characters, and the log
of a whole dispatch contains exactly one such truncated entry per failing
send. -/
theorem log_shows_only_first16 (t₁ t₂ : String)
    (hpre : pySlice t₁ 16 = pySlice t₂ 16) :
    logTokenText t₁ = logTokenText t₂ ∧
    (∀ t : String, (logTokenText t).data.length ≤ 16) ∧
    (∀ (provider : Message → Option String) (title body : String)
        (tokens : List String),
      (sendMessagesToTokens provider title body tokens).logs
        = tokens.filterMap (fun t =>
            match provider (mkMessage title body t) with
            | some e => some { shownToken := logTokenText t, error := e }
            | none => none)) ∧
    (∀ (provider : Message → Option String) (title body : String)
        (tokens : List String) (entry : LogEntry),
      entry ∈ (sendMessagesToTokens provider title body tokens).logs →
      entry.shownToken.data.length ≤ 16) := by
  have hlen : ∀ t : String, (logTokenText t).data.length ≤ 16 := by
    intro t
    rw [logTokenText_eq_pySlice]
    exact List.length_take_le 16 t.data
  have hlogs : ∀ (provider : Message → Option String) (title body : String)
      (tokens : List String),
      (sendMessagesToTokens provider title body tokens).logs
        = tokens.filterMap (fun t =>
            match provider (mkMessage title body t) with
            | some e => some { shownToken := logTokenText t, error := e }
            | none => none) := by
    intro provider title body tokens
    exact (sendMessages_trace provider title body tokens).2.2.2
  refine ⟨?_, hlen, hlogs, ?_⟩
  · rw [logTokenText_eq_pySlice, logTokenText_eq_pySlice, hpre]
  · intro provider title body tokens entry hmem
    rw [hlogs] at hmem
    obtain ⟨t, -, hval⟩ := List.mem_filterMap.mp hmem
    cases hp : provider (mkMessage title body t) with
    | none => rw [hp] at hval; exact absurd hval (by simp)
    | some e =>
      rw [hp] at hval
      simp only [Option.some.injEq] at hval
      rw [← hval]
      exact hlen t

/-- Witness for C8: two 17-character tokens that differ only in their last
character produce identical log token text. -/
theorem log_shows_only_first16_witness :
    logTokenText "0123456789abcdefX" = logTokenText "0123456789abcdefY" ∧
    (∀ t : String, (logTokenText t).data.length ≤ 16) ∧
    (∀ (provider : Message → Option String) (title body : String)
        (tokens : List String),
      (sendMessagesToTokens provider title body tokens).logs
        = tokens.filterMap (fun t =>
            match provider (mkMessage title body t) with
            | some e => some { shownToken := logTokenText t, error := e }
            | none => none)) ∧
    (∀ (provider : Message → Option String) (title body : String)
        (tokens : List String) (entry : LogEntry),
      entry ∈ (sendMessagesToTokens provider title body tokens).logs →
      entry.shownToken.data.length ≤ 16) :=
  log_shows_only_first16 "0123456789abcdefX" "0123456789abcdefY" (by decide)

/-! ## Claim theorems: admission ordering (C4) -/

/-- C4: the API-key check runs only after the rate-limit check passes.  When
the rate limit is exceeded the response is 429, the result does not depend on
the `X-API-Key` header at all (the key is never examined), and no token
resolution or dispatch happens.  When the rate limit passes, a configured key
together with a missing or mismatched header yields 401, again with no token
resolution or dispatch. -/
theorem admission_key_after_rate_limit (env : Env) (clientHost : Option String)
    (req : SendPushRequest) :
    ((rateLimitCheck env.buckets (clientHostToIp clientHost) env.now).allowed = false →
      (∀ k₁ k₂ : Option String,
        send_push env clientHost k₁ req = send_push env clientHost k₂ req) ∧
      (∀ k : Option String,
        (send_push env clientHost k req).response = .tooManyRequests ∧
        (send_push env clientHost k req).resolvedTokens = none ∧
        (send_push env clientHost k req).dispatched = none)) ∧
    ((rateLimitCheck env.buckets (clientHostToIp clientHost) env.now).allowed = true →
      env.pushApiKey ≠ "" →
      ∀ k : Option String, k ≠ some env.pushApiKey →
        (send_push env clientHost k req).response = .unauthorized ∧
        (send_push env clientHost k req).resolvedTokens = none ∧
        (send_push env clientHost k req).dispatched = none) := by
  constructor
  · intro h429
    constructor
    · intro k₁ k₂
      rw [send_push_eq_rateLimited env clientHost k₁ req h429,
        send_push_eq_rateLimited env clientHost k₂ req h429]
    · intro k
      rw [send_push_eq_rateLimited env clientHost k req h429]
      exact ⟨rfl, rfl, rfl⟩
  · intro hrl hkey k hk
    rw [send_push_eq_unauthorized env clientHost k req hrl ⟨hkey, hk⟩]
    exact ⟨rfl, rfl, rfl⟩

/-- Witness for C4: a full bucket makes every header value answer 429, and
with a free slot a configured key with a missing header answers 401. -/
theorem admission_key_after_rate_limit_witness :
    (send_push ⟨"sekrit", 0, fun _ => List.replicate 30 0, [], fun _ => none⟩
        (some "198.51.100.9") none ⟨"t", "b", none⟩
      = send_push ⟨"sekrit", 0, fun _ => List.replicate 30 0, [], fun _ => none⟩
          (some "198.51.100.9") (some "sekrit") ⟨"t", "b", none⟩) ∧
    (send_push ⟨"sekrit", 0, fun _ => List.replicate 30 0, [], fun _ => none⟩
        (some "198.51.100.9") none ⟨"t", "b", none⟩).response = .tooManyRequests ∧
    (send_push ⟨"sekrit", 0, fun _ => [], [], fun _ => none⟩
        (some "198.51.100.9") none ⟨"t", "b", none⟩).response = .unauthorized := by
  have hfull : (rateLimitCheck (fun _ => List.replicate 30 (0 : ℚ)) "198.51.100.9" 0).allowed
      = false := by
    have hfilt : pruneBucket (List.replicate 30 (0 : ℚ)) 0 = List.replicate 30 (0 : ℚ) := by
      rw [pruneBucket_eq]
      apply List.filter_eq_self.mpr
      intro t ht
      rw [List.eq_of_mem_replicate ht]
      norm_num
    rw [rateLimitCheck_eq, hfilt, if_pos (by simp [RATE_LIMIT_REQUESTS])]
  have h1 := (admission_key_after_rate_limit
    ⟨"sekrit", 0, fun _ => List.replicate 30 0, [], fun _ => none⟩
    (some "198.51.100.9") ⟨"t", "b", none⟩).1 hfull
  have h2 := (admission_key_after_rate_limit
    ⟨"sekrit", 0, fun _ => [], [], fun _ => none⟩
    (some "198.51.100.9") ⟨"t", "b", none⟩).2 (by decide) (by decide)
    none (by decide)
  exact ⟨h1.1 none (some "sekrit"), (h1.2 none).1, h2.1⟩

/-! ## Claim theorems: empty resolution (C6) -/

/-- C6: when the admitted request's token resolution yields the empty list,
the handler answers 200 with all counts zero and the no-tokens guidance
message, and the dispatcher is never invoked. -/
theorem no_tokens_zero_response (env : Env) (clientHost apiKeyHeader : Option String)
    (req : SendPushRequest)
    (hrl : (rateLimitCheck env.buckets (clientHostToIp clientHost) env.now).allowed = true)
    (hauth : ¬(env.pushApiKey ≠ "" ∧ apiKeyHeader ≠ some env.pushApiKey))
    (hempty : collectFcmTokens env.store req.device_name = []) :
    (send_push env clientHost apiKeyHeader req).response
      = .ok { success_count := 0, failure_count := 0, total := 0,
              message := NO_TOKENS_MESSAGE } ∧
    (send_push env clientHost apiKeyHeader req).dispatched = none := by
  rw [send_push_eq_noTokens env clientHost apiKeyHeader req hrl hauth hempty]
  exact ⟨rfl, rfl⟩

/-- Witness for C6: a device filter that matches no stored record. -/
theorem no_tokens_zero_response_witness :
    (send_push ⟨"", 0, fun _ => [], [⟨some (.str "A"), some (.str "phone")⟩],
        fun _ => none⟩ (some "198.51.100.2") none ⟨"t", "b", some "tablet"⟩).response
      = .ok { success_count := 0, failure_count := 0, total := 0,
              message := NO_TOKENS_MESSAGE } ∧
    (send_push ⟨"", 0, fun _ => [], [⟨some (.str "A"), some (.str "phone")⟩],
        fun _ => none⟩ (some "198.51.100.2") none ⟨"t", "b", some "tablet"⟩).dispatched
      = none :=
  no_tokens_zero_response
    ⟨"", 0, fun _ => [], [⟨some (.str "A"), some (.str "phone")⟩], fun _ => none⟩
    (some "198.51.100.2") none ⟨"t", "b", some "tablet"⟩
    (by decide) (by decide) (by decide)

/-! ## Helper lemmas: stripping and the token resolver -/

lemma pyStrip_empty : pyStrip "" = "" := rfl

lemma ne_empty_of_pyStrip_ne_empty {d : String} (h : pyStrip d ≠ "") : d ≠ "" := by
  intro hd
  subst hd
  exact h pyStrip_empty

/-- The first character surviving a strip is not whitespace. -/
lemma pyStripList_head_not_ws (l : List Char) (c : Char)
    (h : (pyStripList l).head? = some c) : c.isWhitespace = false := by
  unfold pyStripList at h
  rw [List.head?_reverse] at h
  obtain ⟨C, hC⟩ :=
    List.dropWhile_suffix (l := (l.dropWhile Char.isWhitespace).reverse)
      Char.isWhitespace
  have h2 : ((l.dropWhile Char.isWhitespace).reverse).getLast? = some c := by
    rw [← hC, List.getLast?_append, h, Option.or_some]
  rw [List.getLast?_reverse] at h2
  have h3 := List.head?_dropWhile_not Char.isWhitespace l
  rw [h2] at h3
  exact h3

/-- The last character surviving a strip is not whitespace. -/
lemma pyStripList_getLast_not_ws (l : List Char) (c : Char)
    (h : (pyStripList l).getLast? = some c) : c.isWhitespace = false := by
  unfold pyStripList at h
  rw [List.getLast?_reverse] at h
  have h3 := List.head?_dropWhile_not Char.isWhitespace
    (l.dropWhile Char.isWhitespace).reverse
  rw [h] at h3
  exact h3

/-- Inversion of `extractToken`: a collected token is the stripped value of a
non-empty string token field. -/
lemma extractToken_eq_some {doc : DocData} {tok : String}
    (h : extractToken doc = some tok) :
    ∃ s, doc.token = some (.str s) ∧ pyStrip s = tok ∧ pyStrip s ≠ "" := by
  unfold extractToken at h
  cases htok : doc.token with
  | none => rw [htok] at h; exact absurd h (by simp)
  | some pv =>
    cases pv with
    | nonstr => rw [htok] at h; exact absurd h (by simp)
    | str s =>
      rw [htok] at h
      have h' : (if pyStrip s ≠ "" then some (pyStrip s) else none) = some tok := h
      by_cases hs : pyStrip s ≠ ""
      · rw [if_pos hs] at h'
        exact ⟨s, rfl, Option.some.inj h', hs⟩
      · rw [if_neg hs] at h'
        exact absurd h' (by simp)

lemma queryDocs_none (store : List DocData) :
    queryDocs store none = store.take MAX_TOKENS_PER_REQUEST := rfl

lemma queryDocs_some (store : List DocData) (d : String) :
    queryDocs store (some d) =
      if d ≠ "" ∧ pyStrip d ≠ "" then
        (store.filter (fun doc => doc.deviceName = some (.str (pyStrip d)))).take
          MAX_TOKENS_PER_REQUEST
      else store.take MAX_TOKENS_PER_REQUEST := rfl

/-- Skipping lemma: a document that yields no token contributes nothing to
the collected list, as long as the cap is not reached. -/
lemma filterMap_extract_take_skip (l₁ l₂ : List DocData) (doc : DocData)
    (hdoc : extractToken doc = none) (hlen : (l₁ ++ doc :: l₂).length ≤ 100) :
    ((l₁ ++ doc :: l₂).take 100).filterMap extractToken
      = ((l₁ ++ l₂).take 100).filterMap extractToken := by
  have hlen' : (l₁ ++ l₂).length ≤ 100 := by
    simp only [List.length_append, List.length_cons] at hlen ⊢
    omega
  rw [List.take_of_length_le hlen, List.take_of_length_le hlen',
    List.filterMap_append, List.filterMap_append, List.filterMap_cons_none hdoc]

/-! ## Claim theorems: token resolver (C5) -/

/-- C5: the resolver returns at most 100 tokens; with a filter that is
non-empty after trimming, every returned token comes from a stored record
whose `deviceName` field equals the trimmed filter exactly; with no filter or
a blank one all records are candidates up to the cap; and a record without a
non-empty string token field is silently skipped (it contributes nothing,
shown here below the cap). -/
theorem token_resolver_cap_filter_skip (store : List DocData)
    (device_name : Option String) :
    (collectFcmTokens store device_name).length ≤ 100 ∧
    (∀ d, device_name = some d → pyStrip d ≠ "" →
      ∀ tok ∈ collectFcmTokens store device_name,
        ∃ doc ∈ store, doc.deviceName = some (.str (pyStrip d)) ∧
          ∃ s, doc.token = some (.str s) ∧ pyStrip s = tok) ∧
    ((device_name = none ∨ ∃ d, device_name = some d ∧ pyStrip d = "") →
      collectFcmTokens store device_name
        = (store.take 100).filterMap extractToken) ∧
    (∀ (s₁ s₂ : List DocData) (doc : DocData), extractToken doc = none →
      (s₁ ++ doc :: s₂).length ≤ 100 →
      collectFcmTokens (s₁ ++ doc :: s₂) device_name
        = collectFcmTokens (s₁ ++ s₂) device_name) := by
  refine ⟨?_, ?_, ?_, ?_⟩
  · have hq : (queryDocs store device_name).length ≤ 100 := by
      cases device_name with
      | none =>
        rw [queryDocs_none]
        exact List.length_take_le _ _
      | some d =>
        rw [queryDocs_some]
        by_cases hcond : d ≠ "" ∧ pyStrip d ≠ ""
        · rw [if_pos hcond]
          exact List.length_take_le _ _
        · rw [if_neg hcond]
          exact List.length_take_le _ _
    exact le_trans (List.length_filterMap_le _ _) hq
  · intro d hd hstrip tok htok
    subst hd
    have hcond : d ≠ "" ∧ pyStrip d ≠ "" :=
      ⟨ne_empty_of_pyStrip_ne_empty hstrip, hstrip⟩
    unfold collectFcmTokens at htok
    rw [queryDocs_some, if_pos hcond] at htok
    obtain ⟨doc, hdocmem, hex⟩ := List.mem_filterMap.mp htok
    have hdocmem' := List.take_subset _ _ hdocmem
    rw [List.mem_filter] at hdocmem'
    obtain ⟨hmem, hdev⟩ := hdocmem'
    obtain ⟨s, hs, hstr, -⟩ := extractToken_eq_some hex
    exact ⟨doc, hmem, by simpa using hdev, s, hs, hstr⟩
  · intro hcase
    cases hcase with
    | inl h => subst h; rfl
    | inr h =>
      obtain ⟨d, hd, hds⟩ := h
      subst hd
      unfold collectFcmTokens
      rw [queryDocs_some, if_neg (fun hc => hc.2 hds)]
      rfl
  · intro s₁ s₂ doc hdoc hlen
    cases device_name with
    | none => exact filterMap_extract_take_skip s₁ s₂ doc hdoc hlen
    | some d =>
      by_cases hcond : d ≠ "" ∧ pyStrip d ≠ ""
      · unfold collectFcmTokens
        rw [queryDocs_some, queryDocs_some, if_pos hcond, if_pos hcond,
          List.filter_append, List.filter_append, List.filter_cons]
        by_cases hp : doc.deviceName = some (.str (pyStrip d))
        · rw [if_pos (by simp [hp])]
          apply filterMap_extract_take_skip _ _ _ hdoc
          have h1 := List.length_filter_le
            (fun doc => doc.deviceName = some (.str (pyStrip d))) s₁
          have h2 := List.length_filter_le
            (fun doc => doc.deviceName = some (.str (pyStrip d))) s₂
          simp only [List.length_append, List.length_cons] at hlen ⊢
          omega
        · rw [if_neg (by simp [hp])]
      · unfold collectFcmTokens
        rw [queryDocs_some, queryDocs_some, if_neg hcond, if_neg hcond]
        exact filterMap_extract_take_skip s₁ s₂ doc hdoc hlen

/-- Witness for C5 at concrete stores: a matching filter yields only tokens of
matching records, a blank filter falls back to all records, and a tokenless
record is skipped. -/
theorem token_resolver_cap_filter_skip_witness :
    (collectFcmTokens [⟨some (.str "A"), some (.str "phone")⟩,
        ⟨none, some (.str "phone")⟩] (some "phone")).length ≤ 100 ∧
    (∃ doc ∈ [(⟨some (.str "A"), some (.str "phone")⟩ : DocData),
        ⟨none, some (.str "phone")⟩],
      doc.deviceName = some (.str (pyStrip "phone")) ∧
        ∃ s, doc.token = some (.str s) ∧ pyStrip s = "A") ∧
    (collectFcmTokens [⟨some (.str "A"), some (.str "phone")⟩] (some "  ")
      = ([(⟨some (.str "A"), some (.str "phone")⟩ : DocData)].take 100).filterMap
          extractToken) ∧
    (collectFcmTokens ([] ++ (⟨none, none⟩ : DocData)
        :: [⟨some (.str "A"), some (.str "phone")⟩]) none
      = collectFcmTokens ([] ++ [⟨some (.str "A"), some (.str "phone")⟩]) none) := by
  refine ⟨(token_resolver_cap_filter_skip
      [⟨some (.str "A"), some (.str "phone")⟩, ⟨none, some (.str "phone")⟩]
      (some "phone")).1,
    (token_resolver_cap_filter_skip
      [⟨some (.str "A"), some (.str "phone")⟩, ⟨none, some (.str "phone")⟩]
      (some "phone")).2.1 "phone" rfl (by decide) "A" (by decide),
    (token_resolver_cap_filter_skip
      [⟨some (.str "A"), some (.str "phone")⟩] (some "  ")).2.2.1
      (Or.inr ⟨"  ", rfl, by decide⟩),
    (token_resolver_cap_filter_skip
      ([] ++ (⟨none, none⟩ : DocData) :: [⟨some (.str "A"), some (.str "phone")⟩])
      none).2.2.2 [] [⟨some (.str "A"), some (.str "phone")⟩] ⟨none, none⟩
      (by decide) (by decide)⟩

/-! ## Claim theorems: stripped tokens (C10) -/

/-- C10: every token returned by the resolver is a non-empty string whose
first and last characters are not whitespace (stored values are stripped
before collection), so the collected value can differ from the stored token
field, as the concrete store with token `" tokA "` shows. -/
theorem resolver_tokens_stripped (store : List DocData)
    (device_name : Option String) :
    (∀ tok ∈ collectFcmTokens store device_name,
      tok ≠ "" ∧
      (∀ c, tok.data.head? = some c → c.isWhitespace = false) ∧
      (∀ c, tok.data.getLast? = some c → c.isWhitespace = false)) ∧
    collectFcmTokens [⟨some (.str " tokA "), none⟩] none = ["tokA"] := by
  constructor
  · intro tok htok
    obtain ⟨doc, -, hex⟩ := List.mem_filterMap.mp htok
    obtain ⟨s, -, hstr, hne⟩ := extractToken_eq_some hex
    subst hstr
    refine ⟨hne, ?_, ?_⟩
    · intro c hc
      exact pyStripList_head_not_ws s.data c hc
    · intro c hc
      exact pyStripList_getLast_not_ws s.data c hc
  · decide

/-- Witness for C10: the stored token `" tok "` is collected as `"tok"`,
non-empty with non-whitespace first character. -/
theorem resolver_tokens_stripped_witness :
    (("tok" : String) ≠ "" ∧ Char.isWhitespace 't' = false) ∧
    collectFcmTokens [⟨some (.str " tokA "), none⟩] none = ["tokA"] := by
  have h := resolver_tokens_stripped [⟨some (.str " tok "), none⟩] none
  have h1 := h.1 "tok" (by decide)
  exact ⟨⟨h1.1, h1.2.1 't' (by decide)⟩,
    (resolver_tokens_stripped [] none).2⟩

end PushPwa
